import Mathlib

/-!
Shallow embedding of the solana-aggregator repository: the transfer
extraction pipeline (src/aggregator.rs), the persistence rendering
(src/database.rs) and the query-string construction of the HTTP surface
(src/restful_api.rs), together with proofs of the specified properties.

Machine integers are modelled as Nat/Int with explicit reduction modulo
2^64 where Rust performs `as` casts; Rust panics (out-of-bounds indexing,
`unwrap` on `Err`) are modelled by an explicit `crash` outcome.
-/

/-- Rust `Result`, with decidable equality. Mirrors src/error.rs usage. -/
inductive RsResult (ε : Type) (α : Type) where
  | err (e : ε)
  | ok (a : α)
deriving DecidableEq, Repr

/-- An evaluation that may abort with a Rust panic (`crash`) instead of
returning. Used to model out-of-bounds indexing and `unwrap`. -/
inductive Outcome (α : Type) where
  | crash
  | ok (a : α)
deriving DecidableEq, Repr

/-- The error enum of src/error.rs (`AggregatorError`). -/
inductive AggregatorError where
  | BlockFetchError
  | EnvFetchError
  | PubsubClientError
  | SlotSubscribeError
  | MetaDataFetchError
  | TimeFetchError
  | TransactionParseError
  | DatabaseError
deriving DecidableEq, Repr

/-! ## Public keys

Modelled from the spec: public-key parsing ("parsing each as a public
key — malformed keys are a hard failure").  The parser
(`solana_sdk::pubkey::Pubkey::from_str`, not under src/) accepts exactly
the base58 strings of length at most 44 that decode to exactly 32 bytes;
a `Pubkey` is its 32-byte value. -/

/-- The base58 alphabet used by the key encoding. -/
def base58_alphabet : List Char :=
  "123456789ABCDEFGHJKLMNPQRSTUVWXYZabcdefghijkmnopqrstuvwxyz".data

/-- Value of one base58 digit, `none` for a character outside the alphabet. -/
def base58_digit (c : Char) : Option Nat :=
  base58_alphabet.findIdx? (fun d => d == c)

/-- Accumulate the base58 digits of a string into a natural number;
`none` if any character is invalid. -/
def base58_num : List Char → Nat → Option Nat
  | [], acc => some acc
  | c :: cs, acc =>
    match base58_digit c with
    | none => none
    | some d => base58_num cs (acc * 58 + d)

/-- Number of leading `1` characters (each encodes one leading zero byte). -/
def base58_leading_ones : List Char → Nat
  | [] => 0
  | c :: cs => if c = '1' then base58_leading_ones cs + 1 else 0

/-- Minimal big-endian byte length of a natural number (0 for 0). -/
def nat_byte_len (n : Nat) : Nat :=
  if n = 0 then 0 else Nat.log 256 n + 1

/-- Minimal big-endian byte representation of a natural number. -/
def nat_be_bytes (n : Nat) : List Nat :=
  ((List.range (nat_byte_len n)).reverse).map (fun i => n / 256 ^ i % 256)

/-- A public key: its 32 decoded bytes. -/
def Pubkey : Type := List Nat
deriving DecidableEq, Repr

/-- `Pubkey::default()`: the all-zero key. -/
def Pubkey.default : Pubkey := List.replicate 32 0

/-- `Pubkey::from_str`: succeeds exactly on base58 strings of length at
most 44 whose decoded byte string has length 32. -/
def Pubkey.from_str (s : String) : Option Pubkey :=
  if s.length > 44 then none
  else
    match base58_num s.data 0 with
    | none => none
    | some n =>
      let bytes := List.replicate (base58_leading_ones s.data) 0 ++ nat_be_bytes n
      if bytes.length = 32 then some bytes else none

/-! ## Upstream transaction encoding (solana_transaction_status types,
restricted to the fields the aggregator reads) -/

/-- `UiRawMessage`, restricted to the field read by the aggregator. -/
structure UiRawMessage where
  account_keys : List String
deriving DecidableEq, Repr

/-- `UiMessage`: either a raw message or the parsed variant (whose
fields the aggregator never reads). -/
inductive UiMessage where
  | raw (msg : UiRawMessage)
  | parsed
deriving DecidableEq, Repr

/-- The payload of `EncodedTransaction::Json`. -/
structure UiTransaction where
  signatures : List String
  message : UiMessage
deriving DecidableEq, Repr

/-- `EncodedTransaction`: the JSON encoding or any of the other
variants (binary, accounts), which the aggregator ignores. -/
inductive EncodedTransaction where
  | json (t : UiTransaction)
  | other
deriving DecidableEq, Repr

/-- `UiTransactionStatusMeta`, restricted to the balance snapshots. -/
structure UiTransactionStatusMeta where
  pre_balances : List Nat
  post_balances : List Nat
deriving DecidableEq, Repr

/-- `EncodedTransactionWithStatusMeta`. -/
structure EncodedTransactionWithStatusMeta where
  transaction : EncodedTransaction
  meta : Option UiTransactionStatusMeta
deriving DecidableEq, Repr

/-- Whether the encoding exposes a raw (non-parsed) message. -/
def has_raw_message : EncodedTransaction → Bool
  | .json t =>
    match t.message with
    | .raw _ => true
    | .parsed => false
  | .other => false

/-! ## The aggregator's Transaction value (src/aggregator.rs) -/

/-- The in-memory `Transaction` struct of src/aggregator.rs. -/
structure Transaction where
  sender : Pubkey
  receiver : Pubkey
  amount : Int
  timestamp : String
  signatures : List String
deriving DecidableEq, Repr

/-- `Transaction::new()`: the empty transaction. -/
def Transaction.new : Transaction :=
  { sender := Pubkey.default
    receiver := Pubkey.default
    amount := 0
    timestamp := ""
    signatures := [] }

/-! ## Machine-integer casts used by `fetch_amount` -/

/-- Rust `u64 as i64`: two's-complement reinterpretation of a 64-bit value. -/
def u64_as_i64 (u : Nat) : Int :=
  if u % 18446744073709551616 < 9223372036854775808 then
    ((u % 18446744073709551616 : Nat) : Int)
  else
    ((u % 18446744073709551616 : Nat) : Int) - 18446744073709551616

/-- Two's-complement wrap of an integer into the i64 range (Rust release
wrapping subtraction). -/
def i64_wrap (x : Int) : Int :=
  (x + 9223372036854775808) % 18446744073709551616 - 9223372036854775808

/-- `Transaction::fetch_amount`: `pre_balances[0] as i64 - post_balances[0]
as i64`.  Indexing an empty balance vector is a panic. -/
def fetch_amount (meta_data : UiTransactionStatusMeta) (_message : UiRawMessage) :
    Outcome Int :=
  match meta_data.pre_balances[0]?, meta_data.post_balances[0]? with
  | some pre, some post => .ok (i64_wrap (u64_as_i64 pre - u64_as_i64 post))
  | _, _ => .crash

/-- `Transaction::fetch_sender`: parse `account_keys[0]` as a public key,
panicking on a missing entry (index out of bounds) or on `unwrap` of a
failed parse. -/
def fetch_sender (_meta_data : UiTransactionStatusMeta) (message : UiRawMessage) :
    Outcome Pubkey :=
  match message.account_keys[0]? with
  | none => .crash
  | some k =>
    match Pubkey.from_str k with
    | none => .crash
    | some p => .ok p

/-- `Transaction::fetch_receiver`: parse `account_keys[1]` as a public key,
panicking on a missing entry or a failed parse. -/
def fetch_receiver (_meta_data : UiTransactionStatusMeta) (message : UiRawMessage) :
    Outcome Pubkey :=
  match message.account_keys[1]? with
  | none => .crash
  | some k =>
    match Pubkey.from_str k with
    | none => .crash
    | some p => .ok p

/-- `Transaction::handle_transaction`: returns `MetaDataFetchError` when the
metadata is absent; on a JSON encoding records the signatures, and on a raw
message additionally fetches sender, receiver and amount (each of which may
panic).  Non-JSON encodings and parsed messages fall through to `Ok`. -/
def handle_transaction (self : Transaction)
    (encoded_transaction : EncodedTransactionWithStatusMeta) :
    Outcome (RsResult AggregatorError Transaction) :=
  match encoded_transaction.meta with
  | none => .ok (.err .MetaDataFetchError)
  | some meta_data =>
    match encoded_transaction.transaction with
    | .json message =>
      let self1 := { self with signatures := message.signatures }
      match message.message with
      | .raw msg =>
        match fetch_sender meta_data msg with
        | .crash => .crash
        | .ok s =>
          match fetch_receiver meta_data msg with
          | .crash => .crash
          | .ok r =>
            match fetch_amount meta_data msg with
            | .crash => .crash
            | .ok a => .ok (.ok { self1 with sender := s, receiver := r, amount := a })
      | .parsed => .ok (.ok self1)
    | .other => .ok (.ok self)

/-! ## Persistence (src/database.rs), as seen from the ingestion path -/

/-- One row of the `transactions` table as written by `Database::insert`
(the textual encodings of sender and receiver are kept as typed values
here; the table is append-only). -/
structure DbRow where
  sender : Pubkey
  receiver : Pubkey
  amount : Int
  timestamp : String
  signature : String
deriving DecidableEq, Repr

/-- `Transaction::insert_to_database`: appends one row built from the
transaction, reading `signatures[0]` (a panic when no signature exists);
the insertion `Result` itself is discarded by the caller (`let _ = ...`). -/
def insert_to_database (self : Transaction) (database : List DbRow) :
    Outcome (List DbRow) :=
  match self.signatures[0]? with
  | none => .crash
  | some sig =>
    .ok (database ++ [{ sender := self.sender, receiver := self.receiver,
                        amount := self.amount, timestamp := self.timestamp,
                        signature := sig }])

/-! ## Timestamp formatting (`get_timestamp`) -/

/-- Rust `i64 as u64` on the block time: reduction modulo 2^64. -/
def i64_as_u64 (t : Int) : Nat :=
  (t % 18446744073709551616).toNat

/-- Civil date (year, month, day) of a day count since 1970-01-01,
by the standard Gregorian era decomposition; valid for every
non-negative day count. -/
def civil_from_days (days : Nat) : Nat × Nat × Nat :=
  let z := days + 719468
  let era := z / 146097
  let doe := z % 146097
  let yoe := (doe - doe / 1460 + doe / 36524 - doe / 146096) / 365
  let y := yoe + era * 400
  let doy := doe - (365 * yoe + yoe / 4 - yoe / 100)
  let mp := (5 * doy + 2) / 153
  let d := doy - (153 * mp + 2) / 5 + 1
  let m := if mp < 10 then mp + 3 else mp - 9
  (if m ≤ 2 then y + 1 else y, m, d)

/-- Zero-pad a number to two digits. -/
def pad2 (n : Nat) : String :=
  if n < 10 then "0" ++ toString n else toString n

/-- Zero-pad a number to four digits. -/
def pad4 (n : Nat) : String :=
  if n < 10 then "000" ++ toString n
  else if n < 100 then "00" ++ toString n
  else if n < 1000 then "0" ++ toString n
  else toString n

/-- Modelled from the spec: "timestamp: formatted UTC string (second
precision)" — the `%Y-%m-%d %H:%M:%S` UTC rendering performed by the
chrono library (not under src/), modelled as exact Gregorian arithmetic
on an unbounded count of seconds since the Unix epoch. -/
def format_utc (s : Nat) : String :=
  let days := s / 86400
  let secs := s % 86400
  let ymd := civil_from_days days
  pad4 ymd.1 ++ "-" ++ pad2 ymd.2.1 ++ "-" ++ pad2 ymd.2.2 ++ " " ++
    pad2 (secs / 3600) ++ ":" ++ pad2 (secs % 3600 / 60) ++ ":" ++ pad2 (secs % 60)

/-- The largest second count a `SystemTime` can hold past the epoch:
`UNIX_EPOCH + Duration::from_secs(u)` stores `u` in i64 seconds, so the
addition panics for `u > i64::MAX`. -/
def SYSTEMTIME_MAX_SECS : Nat := 9223372036854775807

/-- The largest epoch second chrono can represent: `DateTime<Utc>`
reaches +262143-12-31 23:59:59; the conversion from `SystemTime` panics
beyond it. -/
def CHRONO_MAX_SECS : Nat := 8210298412799

/-- `get_timestamp`: `UNIX_EPOCH + Duration::from_secs(timestamp as u64)`
formatted as `%Y-%m-%d %H:%M:%S` in UTC.  The `SystemTime` addition panics
when the cast second count exceeds `i64::MAX` (which happens for every
negative `timestamp`, since the cast then yields at least 2^63), and the
chrono conversion panics past its representable range; inside the range
the instant is formatted. -/
def get_timestamp (timestamp : Int) : Outcome String :=
  if SYSTEMTIME_MAX_SECS < i64_as_u64 timestamp then .crash
  else if CHRONO_MAX_SECS < i64_as_u64 timestamp then .crash
  else .ok (format_utc (i64_as_u64 timestamp))

/-! ## Block handling (`handle_block`) -/

/-- `EncodedConfirmedBlock`, restricted to the fields read by
`handle_block`. -/
structure EncodedConfirmedBlock where
  transactions : List EncodedTransactionWithStatusMeta
  block_time : Option Int
deriving DecidableEq, Repr

/-- The transaction loop of `handle_block`: for each encoded transaction,
build a fresh `Transaction` carrying the block's timestamp, extract it,
and on success insert it; the first extraction error aborts the loop with
`TransactionParseError`, keeping the rows inserted so far. -/
def handle_block_loop (time_stamp : String) :
    List EncodedTransactionWithStatusMeta → List DbRow →
    Outcome (RsResult AggregatorError Unit × List DbRow)
  | [], database => .ok (.ok (), database)
  | encoded_transaction :: rest, database =>
    match handle_transaction { Transaction.new with timestamp := time_stamp }
        encoded_transaction with
    | .crash => .crash
    | .ok (.err _) => .ok (.err .TransactionParseError, database)
    | .ok (.ok t) =>
      match insert_to_database t database with
      | .crash => .crash
      | .ok database1 => handle_block_loop time_stamp rest database1

/-- `handle_block`: reject a block with no block time with
`TimeFetchError` (before touching any transaction), otherwise format the
timestamp once (propagating a formatting panic) and run the transaction
loop. -/
def handle_block (block : EncodedConfirmedBlock) (database : List DbRow) :
    Outcome (RsResult AggregatorError Unit × List DbRow) :=
  match block.block_time with
  | none => .ok (.err .TimeFetchError, database)
  | some res =>
    match get_timestamp res with
    | .crash => .crash
    | .ok time_stamp => handle_block_loop time_stamp block.transactions database

/-! ## Subscription loop (`aggregate_data`, src/aggregator.rs lines 152-160) -/

/-- The iteration cap of the subscription loop (`MAX_ITERATIONS`). -/
def MAX_ITERATIONS : Nat := 100

/-- The `for _ in 0..MAX_ITERATIONS` loop: at each iteration poll the slot
stream; when a notification arrives, spawn one task for its root slot
(recorded here in arrival order).  `i` is the poll index, the second
argument the remaining iteration count. -/
def subscription_loop (stream : Nat → Option Nat) : Nat → Nat → List Nat
  | _, 0 => []
  | i, k + 1 =>
    match stream i with
    | some slot => slot :: subscription_loop stream (i + 1) k
    | none => subscription_loop stream (i + 1) k

/-- The observable behaviour of `aggregate_data` after a successful
subscription: the list of slots for which a task was spawned (in order),
whether `unsubscriber()` was invoked, and the returned value.  `_tasks`
gives the eventual outcome of each spawned `get_block` task; the loop
discards the join handles (fire-and-forget), so the outcome never
influences the run. -/
def aggregate_data_run (stream : Nat → Option Nat)
    (_tasks : Nat → RsResult AggregatorError Unit) :
    List Nat × Bool × RsResult AggregatorError Unit :=
  (subscription_loop stream 0 MAX_ITERATIONS, true, .ok ())

/-! ## Query-result rendering (`Database::query`, src/database.rs) -/

/-- One stored row of the `transactions` table as the query surface sees
it: the five columns, with the textual columns as strings and the
`bigint` column as an integer. -/
structure StoredRow where
  sender : String
  receiver : String
  amount : Int
  timestamp : String
  signature : String
deriving DecidableEq, Repr

/-- The per-row rendering of `Database::query`: open brace, then each of
the five columns as `name:` followed by the value and `", "`, then the
closing brace.  (Every column read succeeds on a well-typed stored row.) -/
def render_row (row : StoredRow) : String :=
  "\x7b" ++ "sender:" ++ row.sender ++ ", "
    ++ "receiver:" ++ row.receiver ++ ", "
    ++ "amount:" ++ toString row.amount ++ ", "
    ++ "timestamp:" ++ row.timestamp ++ ", "
    ++ "signature:" ++ row.signature ++ ", "
    ++ "\x7d"

/-- `Database::query`'s response: one rendered string per returned row. -/
def database_query_rows (rows : List StoredRow) : List String :=
  rows.map render_row

/-- The rendering format as the specification words it:
`\x7bsender:<v>, receiver:<v>, amount:<v>, timestamp:<v>, signature:<v>\x7d`,
five fields in that order and nothing else. -/
def spec_render_row (row : StoredRow) : String :=
  "\x7bsender:" ++ row.sender
    ++ ", receiver:" ++ row.receiver
    ++ ", amount:" ++ toString row.amount
    ++ ", timestamp:" ++ row.timestamp
    ++ ", signature:" ++ row.signature
    ++ "\x7d"

/-! ## Query-string construction (src/restful_api.rs) -/

/-- The optional query parameters of `GET /transactions` (`struct Info`). -/
structure Info where
  start_date : Option String
  end_date : Option String
  signature : Option String
  sender : Option String
  receiver : Option String
deriving DecidableEq, Repr

/-- `sender_query`: append ` WHERE`/` AND` depending on the first-filter
flag, then ` sender="<v>"`. -/
def sender_query (st : Bool × String) (sender : String) : Bool × String :=
  let query := if st.1 = false then st.2 ++ " WHERE" else st.2 ++ " AND"
  (true, query ++ " sender=\x22" ++ sender ++ "\x22")

/-- `receiver_query`: append ` WHERE`/` AND`, then ` receiver="<v>"`. -/
def receiver_query (st : Bool × String) (receiver : String) : Bool × String :=
  let query := if st.1 = false then st.2 ++ " WHERE" else st.2 ++ " AND"
  (true, query ++ " receiver=\x22" ++ receiver ++ "\x22")

/-- `signature_query`: append ` WHERE`/` AND`, then ` signature="<v>"`. -/
def signature_query (st : Bool × String) (signature : String) : Bool × String :=
  let query := if st.1 = false then st.2 ++ " WHERE" else st.2 ++ " AND"
  (true, query ++ " signature=\x22" ++ signature ++ "\x22")

/-- `start_date_query`: append ` WHERE`/` AND`, then ` timestamp>=<v>`
(the date bound is not quoted in the source). -/
def start_date_query (st : Bool × String) (start_date : String) : Bool × String :=
  let query := if st.1 = false then st.2 ++ " WHERE" else st.2 ++ " AND"
  (true, query ++ " timestamp>=" ++ start_date)

/-- `end_date_query`: append ` WHERE`/` AND`, then ` timestamp<=<v>`. -/
def end_date_query (st : Bool × String) (end_date : String) : Bool × String :=
  let query := if st.1 = false then st.2 ++ " WHERE" else st.2 ++ " AND"
  (true, query ++ " timestamp<=" ++ end_date)

/-- The query string built by the `transactions` route handler: start from
`SELECT * FROM transactions` and append the supplied filters in source
order (start date, end date, signature, sender, receiver). -/
def transactions_query (info : Info) : String :=
  let st : Bool × String := (false, "SELECT * FROM transactions")
  let st := match info.start_date with
    | some v => start_date_query st v
    | none => st
  let st := match info.end_date with
    | some v => end_date_query st v
    | none => st
  let st := match info.signature with
    | some v => signature_query st v
    | none => st
  let st := match info.sender with
    | some v => sender_query st v
    | none => st
  let st := match info.receiver with
    | some v => receiver_query st v
    | none => st
  st.2

/-! ## A model of the SQL engine evaluating the generated query

Modelled from the spec: the storage engine (rusqlite/SQLite, not under
src/) evaluating the generated `SELECT`.  Per spec §4.4 the query is "a
predicate from zero or more of: signature equality, sender equality,
receiver equality, timestamp lower bound, timestamp upper bound, combined
with logical AND", the date bounds being "compared against the stored
timestamp string" (§6).  The evaluator parses exactly that grammar and
filters the table rows by the conjunction of the parsed conditions. -/

/-- One atomic condition of the generated `WHERE` clause. -/
inductive Cond where
  | sender_eq (v : String)
  | receiver_eq (v : String)
  | signature_eq (v : String)
  | ts_ge (v : String)
  | ts_le (v : String)
deriving DecidableEq, Repr

/-- Whether a stored row satisfies one condition. -/
def cond_holds (c : Cond) (row : StoredRow) : Bool :=
  match c with
  | .sender_eq v => row.sender == v
  | .receiver_eq v => row.receiver == v
  | .signature_eq v => row.signature == v
  | .ts_ge v => decide (v ≤ row.timestamp)
  | .ts_le v => decide (row.timestamp ≤ v)

/-- Leading characters of a `sender` equality condition. -/
def lit_sender : List Char := "sender=\x22".data

/-- Leading characters of a `receiver` equality condition. -/
def lit_receiver : List Char := "receiver=\x22".data

/-- Leading characters of a `signature` equality condition. -/
def lit_signature : List Char := "signature=\x22".data

/-- Leading characters of a timestamp lower-bound condition. -/
def lit_ts_ge : List Char := "timestamp>=".data

/-- Leading characters of a timestamp upper-bound condition. -/
def lit_ts_le : List Char := "timestamp<=".data

/-- The ` AND ` separator between conditions. -/
def sep_and : List Char := " AND ".data

/-- Strip a literal head from a character list, or fail. -/
def match_lit (lit l : List Char) : Option (List Char) :=
  match lit.isPrefixOf l with
  | true => some (l.drop lit.length)
  | false => none

/-- Read a double-quoted value: the characters up to the closing quote,
and the remainder after it. -/
def read_quoted : List Char → Option (List Char × List Char)
  | [] => none
  | c :: cs =>
    if c = '\x22' then some ([], cs)
    else
      match read_quoted cs with
      | none => none
      | some (v, r) => some (c :: v, r)

/-- Parse one condition from the head of the clause, returning the
remainder (which starts at the separator when more conditions follow). -/
def parse1 (l : List Char) : Option (Cond × List Char) :=
  match match_lit lit_sender l with
  | some l1 =>
    match read_quoted l1 with
    | none => none
    | some (v, r) => some (.sender_eq ⟨v⟩, r)
  | none =>
  match match_lit lit_receiver l with
  | some l1 =>
    match read_quoted l1 with
    | none => none
    | some (v, r) => some (.receiver_eq ⟨v⟩, r)
  | none =>
  match match_lit lit_signature l with
  | some l1 =>
    match read_quoted l1 with
    | none => none
    | some (v, r) => some (.signature_eq ⟨v⟩, r)
  | none =>
  match match_lit lit_ts_ge l with
  | some l1 =>
    some (.ts_ge ⟨l1.takeWhile (fun c => !(c == ' '))⟩,
          l1.dropWhile (fun c => !(c == ' ')))
  | none =>
  match match_lit lit_ts_le l with
  | some l1 =>
    some (.ts_le ⟨l1.takeWhile (fun c => !(c == ' '))⟩,
          l1.dropWhile (fun c => !(c == ' ')))
  | none => none

/-- Parse a non-empty ` AND `-separated condition list (fuel-bounded
recursion; the caller supplies ample fuel). -/
def parse_conds : Nat → List Char → Option (List Cond)
  | 0, _ => none
  | fuel + 1, l =>
    match parse1 l with
    | none => none
    | some (c, rest) =>
      if rest = [] then some [c]
      else
        match match_lit sep_and rest with
        | none => none
        | some rest1 =>
          match parse_conds fuel rest1 with
          | none => none
          | some cs => some (c :: cs)

/-- Evaluate a generated query string against the stored table: strip the
fixed `SELECT` head, parse the optional `WHERE` clause, and return the
rows satisfying all conditions (`none` on a string outside the grammar). -/
def run_query (query : String) (table : List StoredRow) : Option (List StoredRow) :=
  match match_lit "SELECT * FROM transactions".data query.data with
  | none => none
  | some rest =>
    if rest = [] then some table
    else
      match match_lit " WHERE ".data rest with
      | none => none
      | some rest1 =>
        match parse_conds (rest1.length + 1) rest1 with
        | none => none
        | some cs => some (table.filter (fun row => cs.all (fun c => cond_holds c row)))

/-- The structured conditions corresponding to the supplied filters of an
`Info`, in the order the handler appends them. -/
def info_conds (info : Info) : List Cond :=
  (match info.start_date with | some v => [Cond.ts_ge v] | none => []) ++
  (match info.end_date with | some v => [Cond.ts_le v] | none => []) ++
  (match info.signature with | some v => [Cond.signature_eq v] | none => []) ++
  (match info.sender with | some v => [Cond.sender_eq v] | none => []) ++
  (match info.receiver with | some v => [Cond.receiver_eq v] | none => [])

/-- A filter value that the string-built query represents faithfully:
quoted equality values contain no double quote, unquoted date bounds
contain no space.  (The source performs no escaping — spec §7 flags the
injection risk — so values outside this set can change the query's
meaning.) -/
def cond_benign : Cond → Prop
  | .sender_eq v => '\x22' ∉ v.data
  | .receiver_eq v => '\x22' ∉ v.data
  | .signature_eq v => '\x22' ∉ v.data
  | .ts_ge v => ' ' ∉ v.data
  | .ts_le v => ' ' ∉ v.data

/-- The characters of one rendered condition. -/
def cond_chars : Cond → List Char
  | .sender_eq v => lit_sender ++ v.data ++ ['\x22']
  | .receiver_eq v => lit_receiver ++ v.data ++ ['\x22']
  | .signature_eq v => lit_signature ++ v.data ++ ['\x22']
  | .ts_ge v => lit_ts_ge ++ v.data
  | .ts_le v => lit_ts_le ++ v.data

/-- The characters of an ` AND `-joined condition list. -/
def join_chars : List Cond → List Char
  | [] => []
  | [c] => cond_chars c
  | c :: cs => cond_chars c ++ sep_and ++ join_chars cs

/-- The characters a condition list appends to the query, threading the
first-filter flag. -/
def conds_chars (flag : Bool) : List Cond → List Char
  | [] => []
  | c :: cs =>
    (if flag then " AND ".data else " WHERE ".data) ++ cond_chars c ++ conds_chars true cs

/-- Apply the source's per-filter append for one structured condition. -/
def apply_cond (st : Bool × String) : Cond → Bool × String
  | .ts_ge v => start_date_query st v
  | .ts_le v => end_date_query st v
  | .signature_eq v => signature_query st v
  | .sender_eq v => sender_query st v
  | .receiver_eq v => receiver_query st v

/-- Apply a list of filters in order. -/
def apply_conds (st : Bool × String) (cs : List Cond) : Bool × String :=
  cs.foldl apply_cond st

/-! ## Concrete inputs used by the witnesses -/

/-- A well-formed encoded transaction (JSON encoding, parsed message,
metadata attached) that extracts and inserts successfully. -/
def tx_ok5 : EncodedTransactionWithStatusMeta :=
  { transaction := .json { signatures := ["sig1"], message := .parsed },
    meta := some { pre_balances := [0], post_balances := [0] } }

/-- An encoded transaction with no metadata: extraction fails with
`MetaDataFetchError`. -/
def tx_bad5 : EncodedTransactionWithStatusMeta := { transaction := .other, meta := none }

/-- The row inserted for `tx_ok5` in a block with block time 0. -/
def row5 : DbRow :=
  { sender := Pubkey.default, receiver := Pubkey.default, amount := 0,
    timestamp := "1970-01-01 00:00:00", signature := "sig1" }

/-! # Helper lemmas -/

theorem string_mk_data (v : String) : (⟨v.data⟩ : String) = v := rfl

theorem match_lit_append (lit r : List Char) : match_lit lit (lit ++ r) = some r := by
  have h : lit.isPrefixOf (lit ++ r) = true := by
    induction lit with
    | nil => cases r <;> rfl
    | cons a as ih => simp [List.isPrefixOf, List.cons_append, ih]
  simp [match_lit, h, List.drop_left]

theorem read_quoted_append (v r : List Char) (hv : '\x22' ∉ v) :
    read_quoted (v ++ '\x22' :: r) = some (v, r) := by
  induction v with
  | nil => simp [read_quoted]
  | cons c cs ih =>
    have hc : ¬ c = '\x22' := fun h => hv (by simp [h])
    have hcs : '\x22' ∉ cs := fun h => hv (List.mem_cons_of_mem _ h)
    simp [read_quoted, hc, ih hcs]

theorem takeWhile_append_of_all (p : Char → Bool) (v r : List Char)
    (hv : ∀ c ∈ v, p c = true) : (v ++ r).takeWhile p = v ++ r.takeWhile p := by
  induction v with
  | nil => simp
  | cons c cs ih =>
    have hc : p c = true := hv c (by simp)
    simp [List.takeWhile_cons, hc, ih (fun d hd => hv d (by simp [hd]))]

theorem dropWhile_append_of_all (p : Char → Bool) (v r : List Char)
    (hv : ∀ c ∈ v, p c = true) : (v ++ r).dropWhile p = r.dropWhile p := by
  induction v with
  | nil => simp
  | cons c cs ih =>
    have hc : p c = true := hv c (by simp)
    simp [List.dropWhile_cons, hc, ih (fun d hd => hv d (by simp [hd]))]

theorem ml_sender_receiver (x : List Char) : match_lit lit_sender (lit_receiver ++ x) = none := rfl

theorem ml_sender_signature (x : List Char) : match_lit lit_sender (lit_signature ++ x) = none := rfl

theorem ml_sender_ts_ge (x : List Char) : match_lit lit_sender (lit_ts_ge ++ x) = none := rfl

theorem ml_sender_ts_le (x : List Char) : match_lit lit_sender (lit_ts_le ++ x) = none := rfl

theorem ml_receiver_signature (x : List Char) :
    match_lit lit_receiver (lit_signature ++ x) = none := rfl

theorem ml_receiver_ts_ge (x : List Char) : match_lit lit_receiver (lit_ts_ge ++ x) = none := rfl

theorem ml_receiver_ts_le (x : List Char) : match_lit lit_receiver (lit_ts_le ++ x) = none := rfl

theorem ml_signature_ts_ge (x : List Char) : match_lit lit_signature (lit_ts_ge ++ x) = none := rfl

theorem ml_signature_ts_le (x : List Char) : match_lit lit_signature (lit_ts_le ++ x) = none := rfl

theorem ml_ts_ge_ts_le (x : List Char) : match_lit lit_ts_ge (lit_ts_le ++ x) = none := rfl

theorem not_space_all (v : List Char) (hv : ' ' ∉ v) :
    ∀ c ∈ v, (!(c == ' ')) = true := by
  intro c hc
  have : ¬ c = ' ' := fun h => hv (h ▸ hc)
  simp [this]

theorem parse1_cond (c : Cond) (hb : cond_benign c) (rest : List Char)
    (hr : rest = [] ∨ ∃ r1, rest = ' ' :: r1) :
    parse1 (cond_chars c ++ rest) = some (c, rest) := by
  have hts : ∀ v : String, ' ' ∉ v.data →
      (v.data ++ rest).takeWhile (fun c => !(c == ' ')) = v.data ∧
      (v.data ++ rest).dropWhile (fun c => !(c == ' ')) = rest := by
    intro v hv
    have hall := not_space_all v.data hv
    rcases hr with h | ⟨r1, h⟩ <;> subst h
    · refine ⟨?_, ?_⟩
      · rw [takeWhile_append_of_all _ _ _ hall]; simp
      · rw [dropWhile_append_of_all _ _ _ hall]; simp
    · refine ⟨?_, ?_⟩
      · rw [takeWhile_append_of_all _ _ _ hall]; simp [List.takeWhile_cons]
      · rw [dropWhile_append_of_all _ _ _ hall]; simp [List.dropWhile_cons]
  cases c with
  | sender_eq v =>
    have e : cond_chars (.sender_eq v) ++ rest = lit_sender ++ (v.data ++ '\x22' :: rest) := by
      simp [cond_chars]
    rw [e]
    simp [parse1, match_lit_append, read_quoted_append v.data rest hb, string_mk_data]
  | receiver_eq v =>
    have e : cond_chars (.receiver_eq v) ++ rest = lit_receiver ++ (v.data ++ '\x22' :: rest) := by
      simp [cond_chars]
    rw [e]
    simp [parse1, ml_sender_receiver, match_lit_append,
      read_quoted_append v.data rest hb, string_mk_data]
  | signature_eq v =>
    have e : cond_chars (.signature_eq v) ++ rest
        = lit_signature ++ (v.data ++ '\x22' :: rest) := by
      simp [cond_chars]
    rw [e]
    simp [parse1, ml_sender_signature, ml_receiver_signature, match_lit_append,
      read_quoted_append v.data rest hb, string_mk_data]
  | ts_ge v =>
    have e : cond_chars (.ts_ge v) ++ rest = lit_ts_ge ++ (v.data ++ rest) := by
      simp [cond_chars]
    rw [e]
    obtain ⟨h1, h2⟩ := hts v hb
    simp [parse1, ml_sender_ts_ge, ml_receiver_ts_ge, ml_signature_ts_ge,
      match_lit_append, h1, h2, string_mk_data]
  | ts_le v =>
    have e : cond_chars (.ts_le v) ++ rest = lit_ts_le ++ (v.data ++ rest) := by
      simp [cond_chars]
    rw [e]
    obtain ⟨h1, h2⟩ := hts v hb
    simp [parse1, ml_sender_ts_le, ml_receiver_ts_le, ml_signature_ts_le, ml_ts_ge_ts_le,
      match_lit_append, h1, h2, string_mk_data]

theorem sep_and_cons (x : List Char) : sep_and ++ x = ' ' :: ("AND ".data ++ x) := rfl

theorem cond_chars_length (c : Cond) : 1 ≤ (cond_chars c).length := by
  have h1 : lit_sender.length = 8 := rfl
  have h2 : lit_receiver.length = 10 := rfl
  have h3 : lit_signature.length = 11 := rfl
  have h4 : lit_ts_ge.length = 11 := rfl
  have h5 : lit_ts_le.length = 11 := rfl
  cases c <;> simp [cond_chars, List.length_append, h1, h2, h3, h4, h5] <;> omega

theorem join_chars_length : ∀ cs : List Cond, cs.length ≤ (join_chars cs).length := by
  intro cs
  induction cs with
  | nil => simp [join_chars]
  | cons c cs ih =>
    cases cs with
    | nil => simpa [join_chars] using cond_chars_length c
    | cons c2 cs2 =>
      have hc := cond_chars_length c
      have hs : sep_and.length = 5 := rfl
      simp only [join_chars, List.length_append, List.length_cons] at ih ⊢
      omega

theorem parse_conds_join : ∀ cs : List Cond, cs ≠ [] → (∀ c ∈ cs, cond_benign c) →
    ∀ fuel, cs.length ≤ fuel → parse_conds fuel (join_chars cs) = some cs := by
  intro cs
  induction cs with
  | nil => intro h; exact absurd rfl h
  | cons c cs ih =>
    intro _ hb fuel hf
    cases fuel with
    | zero => simp at hf
    | succ f =>
      cases cs with
      | nil =>
        have h1 : parse1 (join_chars [c]) = some (c, []) := by
          have := parse1_cond c (hb c (by simp)) [] (Or.inl rfl)
          simpa [join_chars] using this
        simp [parse_conds, h1]
      | cons c2 cs2 =>
        have h1 : parse1 (join_chars (c :: c2 :: cs2))
            = some (c, sep_and ++ join_chars (c2 :: cs2)) := by
          have := parse1_cond c (hb c (by simp)) (sep_and ++ join_chars (c2 :: cs2))
            (Or.inr ⟨"AND ".data ++ join_chars (c2 :: cs2), sep_and_cons _⟩)
          simpa [join_chars, List.append_assoc] using this
        have h2 : parse_conds f (join_chars (c2 :: cs2)) = some (c2 :: cs2) :=
          ih (by simp) (fun d hd => hb d (by simp [hd])) f
            (by simpa using Nat.lt_succ_iff.mp (by simpa using hf))
        have h3 : match_lit sep_and (sep_and ++ join_chars (c2 :: cs2))
            = some (join_chars (c2 :: cs2)) := match_lit_append _ _
        have h4 : sep_and ++ join_chars (c2 :: cs2) ≠ [] := by
          rw [sep_and_cons]; simp
        simp [parse_conds, h1, h4, h3, h2]

theorem apply_cond_chars (st : Bool × String) (c : Cond) :
    (apply_cond st c).1 = true ∧
    (apply_cond st c).2.data
      = st.2.data ++ (if st.1 then " AND ".data else " WHERE ".data) ++ cond_chars c := by
  obtain ⟨flag, q⟩ := st
  have gA : " AND".data = [' ','A','N','D'] := rfl
  have gAs : " AND ".data = [' ','A','N','D',' '] := rfl
  have gW : " WHERE".data = [' ','W','H','E','R','E'] := rfl
  have gWs : " WHERE ".data = [' ','W','H','E','R','E',' '] := rfl
  have g1 : " sender=\x22".data = [' ','s','e','n','d','e','r','=','\x22'] := rfl
  have g2 : " receiver=\x22".data = [' ','r','e','c','e','i','v','e','r','=','\x22'] := rfl
  have g3 : " signature=\x22".data = [' ','s','i','g','n','a','t','u','r','e','=','\x22'] := rfl
  have g4 : " timestamp>=".data = [' ','t','i','m','e','s','t','a','m','p','>','='] := rfl
  have g5 : " timestamp<=".data = [' ','t','i','m','e','s','t','a','m','p','<','='] := rfl
  have g6 : "\x22".data = ['\x22'] := rfl
  have k1 : lit_sender = ['s','e','n','d','e','r','=','\x22'] := rfl
  have k2 : lit_receiver = ['r','e','c','e','i','v','e','r','=','\x22'] := rfl
  have k3 : lit_signature = ['s','i','g','n','a','t','u','r','e','=','\x22'] := rfl
  have k4 : lit_ts_ge = ['t','i','m','e','s','t','a','m','p','>','='] := rfl
  have k5 : lit_ts_le = ['t','i','m','e','s','t','a','m','p','<','='] := rfl
  cases c <;> cases flag <;>
    simp [apply_cond, sender_query, receiver_query, signature_query,
      start_date_query, end_date_query, cond_chars, String.data_append,
      gA, gAs, gW, gWs, g1, g2, g3, g4, g5, g6, k1, k2, k3, k4, k5]

theorem apply_conds_chars : ∀ (cs : List Cond) (st : Bool × String),
    ((apply_conds st cs).2).data = st.2.data ++ conds_chars st.1 cs ∧
    (apply_conds st cs).1 = (st.1 || !cs.isEmpty) := by
  intro cs
  induction cs with
  | nil => intro st; simp [apply_conds, conds_chars]
  | cons c cs ih =>
    intro st
    have hstep : apply_conds st (c :: cs) = apply_conds (apply_cond st c) cs := rfl
    obtain ⟨h1, h2⟩ := apply_cond_chars st c
    obtain ⟨h3, h4⟩ := ih (apply_cond st c)
    rw [hstep]
    refine ⟨?_, ?_⟩
    · rw [h3, h2, h1]
      simp [conds_chars, List.append_assoc]
    · rw [h4, h1]
      simp

theorem conds_chars_true : ∀ cs : List Cond, cs ≠ [] →
    conds_chars true cs = sep_and ++ join_chars cs := by
  intro cs
  induction cs with
  | nil => intro h; exact absurd rfl h
  | cons c cs ih =>
    intro _
    cases cs with
    | nil => simp [conds_chars, join_chars, sep_and]
    | cons c2 cs2 =>
      have h := ih (by simp)
      calc conds_chars true (c :: c2 :: cs2)
          = " AND ".data ++ cond_chars c ++ conds_chars true (c2 :: cs2) := rfl
        _ = " AND ".data ++ cond_chars c ++ (sep_and ++ join_chars (c2 :: cs2)) := by rw [h]
        _ = sep_and ++ join_chars (c :: c2 :: cs2) := by
            simp only [join_chars]
            simp [sep_and, List.append_assoc]

theorem conds_chars_false (c : Cond) (cs : List Cond) :
    conds_chars false (c :: cs) = " WHERE ".data ++ join_chars (c :: cs) := by
  cases cs with
  | nil => simp [conds_chars, join_chars]
  | cons c2 cs2 =>
    calc conds_chars false (c :: c2 :: cs2)
        = " WHERE ".data ++ cond_chars c ++ conds_chars true (c2 :: cs2) := rfl
      _ = " WHERE ".data ++ cond_chars c ++ (sep_and ++ join_chars (c2 :: cs2)) := by
          rw [conds_chars_true (c2 :: cs2) (by simp)]
      _ = " WHERE ".data ++ join_chars (c :: c2 :: cs2) := by
          simp only [join_chars]
          simp [sep_and, List.append_assoc]

theorem transactions_query_eq (info : Info) :
    transactions_query info
      = (apply_conds (false, "SELECT * FROM transactions") (info_conds info)).2 := by
  obtain ⟨sd, ed, sg, sn, rc⟩ := info
  cases sd <;> cases ed <;> cases sg <;> cases sn <;> cases rc <;> rfl

theorem run_query_gen (info : Info) (table : List StoredRow)
    (hb : ∀ c ∈ info_conds info, cond_benign c) :
    run_query (transactions_query info) table
      = some (table.filter (fun row => (info_conds info).all (fun c => cond_holds c row))) := by
  rw [transactions_query_eq info]
  generalize hg : info_conds info = cs at hb ⊢
  obtain ⟨hdata, _⟩ := apply_conds_chars cs (false, "SELECT * FROM transactions")
  cases cs with
  | nil =>
    simp only [conds_chars, List.append_nil] at hdata
    have hml0 : match_lit "SELECT * FROM transactions".data
        "SELECT * FROM transactions".data = some [] := by
      have := match_lit_append "SELECT * FROM transactions".data []
      simpa using this
    simp [run_query, hdata, hml0, List.filter_true]
  | cons c cs2 =>
    rw [conds_chars_false] at hdata
    have hml : match_lit "SELECT * FROM transactions".data
        ((apply_conds (false, "SELECT * FROM transactions") (c :: cs2)).2).data
        = some (" WHERE ".data ++ join_chars (c :: cs2)) := by
      rw [hdata]
      exact match_lit_append _ _
    have hne : " WHERE ".data ++ join_chars (c :: cs2) ≠ [] := by
      have h0 : " WHERE ".data ++ join_chars (c :: cs2)
          = ' ' :: ("WHERE ".data ++ join_chars (c :: cs2)) := rfl
      rw [h0]; simp
    have hml2 : match_lit [' ', 'W', 'H', 'E', 'R', 'E', ' ']
        (' ' :: 'W' :: 'H' :: 'E' :: 'R' :: 'E' :: ' ' :: join_chars (c :: cs2))
        = some (join_chars (c :: cs2)) := by
      have h0 := match_lit_append [' ', 'W', 'H', 'E', 'R', 'E', ' '] (join_chars (c :: cs2))
      simpa using h0
    have hpc : parse_conds ((join_chars (c :: cs2)).length + 1) (join_chars (c :: cs2))
        = some (c :: cs2) := by
      apply parse_conds_join (c :: cs2) (by simp) hb
      have := join_chars_length (c :: cs2)
      omega
    simp [run_query, hml, hne, hml2, hpc]

theorem subscription_loop_filterMap (stream : Nat → Option Nat) :
    ∀ k i, subscription_loop stream i k = (List.range' i k).filterMap stream := by
  intro k
  induction k with
  | zero => intro i; rfl
  | succ k ih =>
    intro i
    rw [List.range'_succ]
    cases h : stream i <;> simp [subscription_loop, h, ih]

theorem subscription_loop_length (stream : Nat → Option Nat) :
    ∀ k i, (∀ j, j < k → (stream (i + j)).isSome = true) →
      (subscription_loop stream i k).length = k := by
  intro k
  induction k with
  | zero => intro i _; rfl
  | succ k ih =>
    intro i h
    have h0 : (stream i).isSome = true := by
      have := h 0 (Nat.succ_pos k); simpa using this
    obtain ⟨slot, hs⟩ := Option.isSome_iff_exists.mp h0
    have hrest : ∀ j, j < k → (stream (i + 1 + j)).isSome = true := by
      intro j hj
      have := h (j + 1) (by omega)
      have e : i + (j + 1) = i + 1 + j := by omega
      rwa [e] at this
    simp [subscription_loop, hs, ih (i + 1) hrest]

/-! # Claim theorems -/

/-- C1: for every raw transaction whose first pre/post balance snapshots lie
in the i64 range, the extracted amount is exactly `pre_balances[0] -
post_balances[0]`, sign included — the u64-to-i64 casts and the i64
subtraction introduce no precision loss or sign corruption. -/
theorem fetch_amount_exact (pre post : Nat) (bal1 bal2 : List Nat) (msg : UiRawMessage)
    (hpre : pre < 9223372036854775808) (hpost : post < 9223372036854775808) :
    fetch_amount ⟨pre :: bal1, post :: bal2⟩ msg = .ok ((pre : Int) - post) := by
  have h : i64_wrap (u64_as_i64 pre - u64_as_i64 post) = (pre : Int) - post := by
    unfold u64_as_i64 i64_wrap
    split <;> split <;> omega
  simp [fetch_amount, h]

/-- Witness for C1: the spec's reference balances (100, 80) give amount 20. -/
theorem fetch_amount_exact_witness :
    (100 : Nat) < 9223372036854775808 ∧ (80 : Nat) < 9223372036854775808 ∧
    fetch_amount ⟨[100, 50], [80, 70]⟩ ⟨[]⟩ = .ok 20 :=
  ⟨by norm_num, by norm_num,
    fetch_amount_exact 100 80 [50] [70] ⟨[]⟩ (by norm_num) (by norm_num)⟩

/-- C2 (failing input): a JSON-encoded raw transaction with metadata attached
but an empty account-key list makes extraction panic (`account_keys[0]` is
out of bounds) instead of returning a typed `AggregatorError`, contradicting
the claim that precondition violations surface as typed failures. -/
theorem handle_transaction_short_keys_crash :
    handle_transaction Transaction.new
      { transaction := .json { signatures := ["s"], message := .raw { account_keys := [] } },
        meta := some { pre_balances := [0], post_balances := [0] } } = .crash := rfl

/-- C3: a block whose block time is `None` makes `handle_block` return
`TimeFetchError` and leaves the store untouched — no transaction of the
block is extracted or inserted. -/
theorem handle_block_no_blocktime (txs : List EncodedTransactionWithStatusMeta)
    (db : List DbRow) :
    handle_block { transactions := txs, block_time := none } db
      = .ok (.err AggregatorError.TimeFetchError, db) := rfl

/-- C4 (counterexample): a transaction whose encoding exposes no raw message
but which carries metadata does NOT yield the missing-metadata error — it
succeeds with a default-valued transfer (only the signature list is set),
refuting the claimed if-and-only-if. -/
theorem handle_transaction_nonraw_default_cex :
    has_raw_message (EncodedTransaction.json { signatures := ["s"], message := .parsed })
      = false ∧
    (some { pre_balances := [0], post_balances := [0] }
      : Option UiTransactionStatusMeta).isSome = true ∧
    handle_transaction Transaction.new
      { transaction := .json { signatures := ["s"], message := .parsed },
        meta := some { pre_balances := [0], post_balances := [0] } }
      = .ok (.ok { Transaction.new with signatures := ["s"] }) :=
  ⟨rfl, rfl, rfl⟩

/-- C4 (amended): extraction returns the missing-metadata error exactly when
the transaction carries no metadata record; a transaction with metadata whose
encoding does not expose a raw message instead succeeds with a
default-valued transfer. -/
theorem handle_transaction_missing_meta_iff (self : Transaction)
    (e : EncodedTransactionWithStatusMeta) :
    (handle_transaction self e = .ok (.err AggregatorError.MetaDataFetchError))
      ↔ e.meta = none := by
  obtain ⟨tr, meta⟩ := e
  cases meta with
  | none => simp [handle_transaction]
  | some m =>
    simp only [handle_transaction]
    cases tr with
    | other => simp
    | json msg =>
      obtain ⟨sigs, mm⟩ := msg
      cases mm with
      | parsed => simp
      | raw r =>
        cases hs : fetch_sender m r with
        | crash => simp [hs]
        | ok s =>
          cases hr : fetch_receiver m r with
          | crash => simp [hs, hr]
          | ok rc =>
            cases ha : fetch_amount m r with
            | crash => simp [hs, hr, ha]
            | ok a => simp [hs, hr, ha]

/-- C5: in a block whose timestamp formats successfully, if every
transaction before index i extracts and inserts successfully and the i-th
fails with a typed extraction error, then `handle_block` returns
`TransactionParseError`, the rows inserted for the earlier transactions
remain, and the transactions after index i are neither extracted nor
inserted (the result does not depend on them). -/
theorem handle_block_error_isolation (bt : Int) (ts : String)
    (hts : get_timestamp bt = .ok ts)
    (txs_ok : List EncodedTransactionWithStatusMeta)
    (bad : EncodedTransactionWithStatusMeta)
    (rest : List EncodedTransactionWithStatusMeta)
    (db kept : List DbRow)
    (hok : handle_block_loop ts txs_ok db = .ok (.ok (), kept))
    (hbad : ∃ err, handle_transaction { Transaction.new with timestamp := ts } bad
        = .ok (.err err)) :
    handle_block { transactions := txs_ok ++ bad :: rest, block_time := some bt } db
      = .ok (.err AggregatorError.TransactionParseError, kept) := by
  obtain ⟨err, hberr⟩ := hbad
  show (match get_timestamp bt with
    | .crash => Outcome.crash
    | .ok time_stamp => handle_block_loop time_stamp (txs_ok ++ bad :: rest) db) = _
  rw [hts]
  show handle_block_loop ts (txs_ok ++ bad :: rest) db = _
  induction txs_ok generalizing db with
  | nil =>
    simp only [handle_block_loop] at hok
    simp only [Outcome.ok.injEq, Prod.mk.injEq] at hok
    simp [handle_block_loop, hberr, hok.2]
  | cons t txs ih =>
    cases h1 : handle_transaction { Transaction.new with timestamp := ts } t with
    | crash => simp [handle_block_loop, h1] at hok
    | ok r =>
      cases r with
      | err e => simp [handle_block_loop, h1] at hok
      | ok t1 =>
        cases h2 : insert_to_database t1 db with
        | crash => simp [handle_block_loop, h1, h2] at hok
        | ok db1 =>
          simp only [List.cons_append, handle_block_loop, h1, h2] at hok ⊢
          exact ih db1 hok

/-- Witness for C5: block time 0 formats to "1970-01-01 00:00:00"; one good
transaction, then a metadata-less one, then one more; the block returns
`TransactionParseError` with exactly the first row kept. -/
theorem handle_block_error_isolation_witness :
    get_timestamp 0 = .ok "1970-01-01 00:00:00" ∧
    handle_block_loop "1970-01-01 00:00:00" [tx_ok5] [] = .ok (.ok (), [row5]) ∧
    (∃ err, handle_transaction
        { Transaction.new with timestamp := "1970-01-01 00:00:00" } tx_bad5
        = .ok (.err err)) ∧
    handle_block { transactions := [tx_ok5] ++ tx_bad5 :: [tx_bad5], block_time := some 0 } []
      = .ok (.err AggregatorError.TransactionParseError, [row5]) := by
  have hts : get_timestamp 0 = .ok "1970-01-01 00:00:00" := by decide
  have h1 : handle_block_loop "1970-01-01 00:00:00" [tx_ok5] []
      = .ok (.ok (), [row5]) := by decide
  have h2 : handle_transaction
      { Transaction.new with timestamp := "1970-01-01 00:00:00" } tx_bad5
      = .ok (.err AggregatorError.MetaDataFetchError) := rfl
  exact ⟨hts, h1, ⟨_, h2⟩,
    handle_block_error_isolation 0 "1970-01-01 00:00:00" hts
      [tx_ok5] tx_bad5 [tx_bad5] [] [row5] h1 ⟨_, h2⟩⟩

/-- C6: when the slot stream delivers a notification at each of the
`MAX_ITERATIONS` (100) polls, the subscription loop spawns exactly
`MAX_ITERATIONS` per-slot tasks — one per received notification, in arrival
order — independently of the outcomes of the spawned tasks, and then
unsubscribes and returns success. -/
theorem aggregate_loop_spawns (stream : Nat → Option Nat)
    (tasks : Nat → RsResult AggregatorError Unit)
    (h : ∀ i, i < MAX_ITERATIONS → (stream i).isSome = true) :
    (aggregate_data_run stream tasks).1.length = MAX_ITERATIONS ∧
    (aggregate_data_run stream tasks).1 = (List.range MAX_ITERATIONS).filterMap stream ∧
    (aggregate_data_run stream tasks).2.1 = true ∧
    (aggregate_data_run stream tasks).2.2 = .ok () := by
  refine ⟨?_, ?_, rfl, rfl⟩
  · exact subscription_loop_length stream MAX_ITERATIONS 0
      (fun j hj => by simpa using h j hj)
  · rw [show (aggregate_data_run stream tasks).1
        = subscription_loop stream 0 MAX_ITERATIONS from rfl,
      subscription_loop_filterMap, List.range_eq_range']

/-- Witness for C6: a stream that always delivers, with every spawned task
failing, still spawns exactly 100 tasks and terminates successfully. -/
theorem aggregate_loop_spawns_witness :
    (∀ i, i < MAX_ITERATIONS → ((fun n => some n) i).isSome = true) ∧
    (aggregate_data_run (fun n => some n) (fun _ => .err .BlockFetchError)).1.length
      = MAX_ITERATIONS ∧
    (aggregate_data_run (fun n => some n) (fun _ => .err .BlockFetchError)).2.2 = .ok () :=
  ⟨fun _ _ => rfl,
    (aggregate_loop_spawns (fun n => some n) (fun _ => .err .BlockFetchError)
      (fun _ _ => rfl)).1,
    (aggregate_loop_spawns (fun n => some n) (fun _ => .err .BlockFetchError)
      (fun _ _ => rfl)).2.2.2⟩

/-- C7: for benign filter values (no double quote in the quoted equality
values, no space in the unquoted date bounds — the source performs no
escaping), the generated query evaluates to exactly the rows satisfying the
conjunction of the supplied filters; in particular an empty filter set
returns all rows and `sender=X` returns exactly the rows whose sender
equals X. -/
theorem transactions_query_filters (info : Info) (table : List StoredRow)
    (hb : ∀ c ∈ info_conds info, cond_benign c) :
    run_query (transactions_query info) table
      = some (table.filter (fun row => (info_conds info).all (fun c => cond_holds c row))) ∧
    run_query (transactions_query
        { start_date := none, end_date := none, signature := none,
          sender := none, receiver := none }) table = some table ∧
    ∀ X : String, '\x22' ∉ X.data →
      run_query (transactions_query
          { start_date := none, end_date := none, signature := none,
            sender := some X, receiver := none }) table
        = some (table.filter (fun row => row.sender == X)) := by
  refine ⟨run_query_gen info table hb, ?_, ?_⟩
  · have h := run_query_gen
      { start_date := none, end_date := none, signature := none,
        sender := none, receiver := none } table (by intro c hc; simp [info_conds] at hc)
    simpa [info_conds] using h
  · intro X hX
    have h := run_query_gen
      { start_date := none, end_date := none, signature := none,
        sender := some X, receiver := none } table
      (by intro c hc; simp [info_conds] at hc; subst hc; exact hX)
    simpa [info_conds, cond_holds] using h

/-- Witness for C7: a sender filter on "alice" over a two-row table returns
exactly the "alice" row. -/
theorem transactions_query_filters_witness :
    (∀ c ∈ info_conds
        { start_date := none, end_date := none, signature := none,
          sender := some "alice", receiver := none }, cond_benign c) ∧
    (run_query (transactions_query
        { start_date := none, end_date := none, signature := none,
          sender := some "alice", receiver := none })
        [{ sender := "alice", receiver := "b", amount := 1, timestamp := "t", signature := "s1" },
         { sender := "bob", receiver := "b", amount := 2, timestamp := "t", signature := "s2" }]
      = some [{ sender := "alice", receiver := "b", amount := 1,
                timestamp := "t", signature := "s1" }]) := by
  have hb : ∀ c ∈ info_conds
      { start_date := none, end_date := none, signature := none,
        sender := some "alice", receiver := none }, cond_benign c := by
    intro c hc
    simp [info_conds] at hc
    subst hc
    intro h
    simp at h
  refine ⟨hb, ?_⟩
  have h := (transactions_query_filters
    { start_date := none, end_date := none, signature := none,
      sender := some "alice", receiver := none }
    [{ sender := "alice", receiver := "b", amount := 1, timestamp := "t", signature := "s1" },
     { sender := "bob", receiver := "b", amount := 2, timestamp := "t", signature := "s2" }]
    hb).1
  rw [h]
  rfl

/-- C8 (counterexample): the rendered row is not the claimed
`\x7bsender:<v>, receiver:<v>, amount:<v>, timestamp:<v>, signature:<v>\x7d` —
the code emits a trailing `", "` after the signature, before the closing
brace. -/
theorem render_row_trailing_sep_cex :
    render_row { sender := "a", receiver := "b", amount := 1,
                 timestamp := "t", signature := "s" }
      ≠ spec_render_row { sender := "a", receiver := "b", amount := 1,
                          timestamp := "t", signature := "s" } := by
  decide

/-- C8 (amended): every persisted row is rendered as
`\x7bsender:<v>, receiver:<v>, amount:<v>, timestamp:<v>, signature:<v>, \x7d` —
the five fields in that order, each followed by a `", "` separator,
including a trailing one before the closing brace. -/
theorem render_row_format (row : StoredRow) :
    render_row row = "\x7bsender:" ++ row.sender ++ ", receiver:" ++ row.receiver
      ++ ", amount:" ++ toString row.amount ++ ", timestamp:" ++ row.timestamp
      ++ ", signature:" ++ row.signature ++ ", \x7d" := by
  apply String.ext
  simp only [render_row, String.data_append, List.append_assoc]
  have e1 : "\x7b".data = ['\x7b'] := rfl
  have e2 : "sender:".data = ['s','e','n','d','e','r',':'] := rfl
  have e3 : ", ".data = [',',' '] := rfl
  have e4 : "receiver:".data = ['r','e','c','e','i','v','e','r',':'] := rfl
  have e5 : "amount:".data = ['a','m','o','u','n','t',':'] := rfl
  have e6 : "timestamp:".data = ['t','i','m','e','s','t','a','m','p',':'] := rfl
  have e7 : "signature:".data = ['s','i','g','n','a','t','u','r','e',':'] := rfl
  have e8 : "\x7d".data = ['\x7d'] := rfl
  have f1 : "\x7bsender:".data = ['\x7b','s','e','n','d','e','r',':'] := rfl
  have f2 : ", receiver:".data = [',',' ','r','e','c','e','i','v','e','r',':'] := rfl
  have f3 : ", amount:".data = [',',' ','a','m','o','u','n','t',':'] := rfl
  have f4 : ", timestamp:".data = [',',' ','t','i','m','e','s','t','a','m','p',':'] := rfl
  have f5 : ", signature:".data = [',',' ','s','i','g','n','a','t','u','r','e',':'] := rfl
  have f6 : ", \x7d".data = [',',' ','\x7d'] := rfl
  simp [e1, e2, e3, e4, e5, e6, e7, e8, f1, f2, f3, f4, f5, f6]

/-- C9: `get_timestamp 1722201110` completes without panicking and is the
UTC rendering "2024-07-28 21:11:50" (second precision, `%Y-%m-%d %H:%M:%S`,
not local time). -/
theorem get_timestamp_reference :
    get_timestamp 1722201110 = .ok "2024-07-28 21:11:50" := by
  decide

/-- C10 (counterexample): at `t = -1` the call panics — the cast yields
2^64 - 1 seconds, the `SystemTime` addition overflows its i64 seconds —
so it does not yield the far-future formatted date (the rendering of
`t + 2^64` seconds) the claim asserts. -/
theorem get_timestamp_neg_crash_cex :
    get_timestamp (-1) = .crash ∧
    get_timestamp (-1) ≠ .ok (format_utc ((-1 : Int) + 18446744073709551616).toNat) := by
  refine ⟨by decide, ?_⟩
  intro h
  rw [show get_timestamp (-1) = .crash from by decide] at h
  exact Outcome.noConfusion h

/-- C10 (amended): a negative i64 block time is reinterpreted modulo 2^64
as the unsigned second count `t + 2^64`, which is at least 2^63 and
therefore overflows the `SystemTime` addition: the call panics and produces
no formatted date at all — in particular never the pre-1970 UTC date
corresponding to `t`; only for `t ≥ 0` (and within chrono's representable
range, up to epoch second 8210298412799) does the call return, denoting the
instant `t` seconds after the Unix epoch. -/
theorem get_timestamp_negative_crash (t : Int)
    (h1 : -9223372036854775808 ≤ t) (h2 : t < 0) :
    i64_as_u64 t = (t + 18446744073709551616).toNat ∧
    9223372036854775808 ≤ i64_as_u64 t ∧
    get_timestamp t = .crash ∧
    ∀ u : Int, 0 ≤ u → (u : Int) ≤ (CHRONO_MAX_SECS : Int) →
      get_timestamp u = .ok (format_utc u.toNat) := by
  have hcast : i64_as_u64 t = (t + 18446744073709551616).toNat := by
    unfold i64_as_u64; omega
  have hbig : 9223372036854775808 ≤ i64_as_u64 t := by
    unfold i64_as_u64; omega
  refine ⟨hcast, hbig, ?_, ?_⟩
  · rw [get_timestamp, if_pos]
    unfold SYSTEMTIME_MAX_SECS
    omega
  · intro u hu1 hu2
    unfold CHRONO_MAX_SECS at hu2
    have hu3 : i64_as_u64 u = u.toNat := by unfold i64_as_u64; omega
    have hu4 : u.toNat ≤ 8210298412799 := by omega
    rw [get_timestamp, hu3, if_neg (by unfold SYSTEMTIME_MAX_SECS; omega),
      if_neg (by unfold CHRONO_MAX_SECS; omega)]

/-- Witness for C10: the input -1 is reinterpreted as 2^64 - 1 seconds and
the call panics; the in-range input 0 formats normally. -/
theorem get_timestamp_negative_crash_witness :
    (-9223372036854775808 ≤ (-1 : Int)) ∧ ((-1 : Int) < 0) ∧
    (i64_as_u64 (-1) = ((-1 : Int) + 18446744073709551616).toNat ∧
     9223372036854775808 ≤ i64_as_u64 (-1) ∧
     get_timestamp (-1) = .crash ∧
     ∀ u : Int, 0 ≤ u → (u : Int) ≤ (CHRONO_MAX_SECS : Int) →
       get_timestamp u = .ok (format_utc u.toNat)) :=
  ⟨by norm_num, by norm_num,
    get_timestamp_negative_crash (-1) (by norm_num) (by norm_num)⟩
